import Mathlib

/-!
Verification development for the flowcode generation script
(flowcode-generation-func.py).  The script is a five-stage pipeline:
input validation, campaign provisioning, URL-request building, batch URL
creation, and SVG materialisation.  Each stage is embedded below as a
pure Lean function; network and filesystem effects are made explicit by
passing oracle functions and returning request / action traces.
-/

set_option autoImplicit false

namespace Flowcode

/-! ## Data model

A pandas cell value is stringified with f-string formatting wherever the
script reads it, so cells are modelled as strings (stringification is the
identity on the model).  A row is an association list from column name to
cell value; a table carries its column list and its rows in order. -/

abbrev Row := List (String × String)

structure Table where
  cols : List String
  rows : List Row
  deriving Repr, DecidableEq

/-- Reading the cell of a row at a column name (pandas row[col]).  All
reads in the pipeline happen after validation ensured the column exists. -/
def rowGet (r : Row) (c : String) : String :=
  (r.lookup c).getD ""

/-- dataset.loc[:, cols]: column selection producing a new two-column
frame; the original frame is not modified. -/
def locSelect (cs : List String) (t : Table) : Table :=
  { cols := cs, rows := t.rows.map (fun r => cs.map (fun c => (c, rowGet r c))) }

/-- dataset[col]: the column values in row order. -/
def colValues (t : Table) (c : String) : List String :=
  t.rows.map (fun r => rowGet r c)

/-- pandas Series.unique(): distinct values in order of first appearance. -/
def uniqueList : List String → List String
  | [] => []
  | a :: as => a :: (uniqueList as).filter (fun b => b ≠ a)

/-! ## Errors

The exceptions the script can raise, flattened to one inductive.  The
isinstance checks of _error_checking (client id not a string, dataset not
a DataFrame) are unrepresentable here because the embedding is typed, so
only the reachable-for-typed-input errors appear. -/

inductive Err where
  | clientIdFormat
  | idColumnMissing
  | campaignColumnMissing
  | http (code : Nat)
  | nameError
  | indexError
  | fileExists (path : String)
  deriving Repr, DecidableEq

/-! ## Input validator (_error_checking)

The client id check is re.fullmatch against
"[a-z0-9]{8}-[a-z0-9]{4}-[a-z0-9]{4}-[a-z0-9]{4}-[a-z0-9]{12}".
`matchGroups` transcribes that fixed-shape regex: five dash-separated
groups of the given lengths, each character in [a-z0-9]. -/

def isLowerAlnum (c : Char) : Bool :=
  (97 ≤ c.toNat && c.toNat ≤ 122) || (48 ≤ c.toNat && c.toNat ≤ 57)

def matchGroups : List Nat → List Char → Bool
  | [], cs => cs.isEmpty
  | n :: ns, cs =>
    let g := cs.take n
    let rest := cs.drop n
    (g.length == n && g.all isLowerAlnum) &&
      (match ns with
       | [] => rest.isEmpty
       | _ :: _ =>
         match rest with
         | '-' :: r => matchGroups ns r
         | _ => false)

/-- The client-id pattern the code actually enforces: 8-4-4-4-12 groups
of [a-z0-9] (lowercase letters or digits, not restricted to hex). -/
def codeClientIdOk (s : String) : Bool :=
  matchGroups [8, 4, 4, 4, 12] s.data

def isLowerHex (c : Char) : Bool :=
  (97 ≤ c.toNat && c.toNat ≤ 102) || (48 ≤ c.toNat && c.toNat ≤ 57)

def matchGroupsHex : List Nat → List Char → Bool
  | [], cs => cs.isEmpty
  | n :: ns, cs =>
    let g := cs.take n
    let rest := cs.drop n
    (g.length == n && g.all isLowerHex) &&
      (match ns with
       | [] => rest.isEmpty
       | _ :: _ =>
         match rest with
         | '-' :: r => matchGroupsHex ns r
         | _ => false)

/-- Modelled from the spec wording of C2: the canonical UUID shape of
8-4-4-4-12 lowercase hexadecimal groups, to be compared with the pattern
the code enforces. -/
def specClientIdOk (s : String) : Bool :=
  matchGroupsHex [8, 4, 4, 4, 12] s.data

/-- _error_checking: client id format, then presence of the two columns.
Raises (returns an error) on the first failed check, in source order. -/
def errorChecking (client_id : String) (dataset : Table)
    (id_column_name campaign_column_name : String) : Except Err Unit :=
  if ¬ codeClientIdOk client_id then
    .error .clientIdFormat
  else if id_column_name ∉ dataset.cols then
    .error .idColumnMissing
  else if campaign_column_name ∉ dataset.cols then
    .error .campaignColumnMissing
  else
    .ok ()

/-! ## Campaign provisioner (_generate_campaigns)

One POST per campaign to the bulk-campaign endpoint.  The network is an
oracle from the form payload to a response outcome; raise_for_status
turns a 4xx/5xx status into an HTTPError, modelled by `httpError`.
The function returns the trace of requests issued and, when a non-409
HTTPError was re-raised, its status code. -/

structure CampaignReq where
  name : String
  display_name : String
  client_id : String
  reserved_urls_unique : Bool
  deriving Repr, DecidableEq

inductive CampaignResp where
  | success
  | httpError (code : Nat)
  deriving Repr, DecidableEq

def mkCampaignReq (campaign client_id : String) (reserved_urls : Bool) : CampaignReq :=
  { name := campaign
    display_name := campaign ++ " display"
    client_id := client_id
    reserved_urls_unique := reserved_urls }

def generateCampaigns (campaigns : List String) (client_id : String)
    (reserved_urls : Bool) (net : CampaignReq → CampaignResp) :
    List CampaignReq × Option Nat :=
  match campaigns with
  | [] => ([], none)
  | c :: rest =>
    let req := mkCampaignReq c client_id reserved_urls
    match net req with
    | .success =>
      let (t, e) := generateCampaigns rest client_id reserved_urls net
      (req :: t, e)
    | .httpError code =>
      if code = 409 then
        -- already exists: logged and skipped, processing continues
        let (t, e) := generateCampaigns rest client_id reserved_urls net
        (req :: t, e)
      else
        -- any other HTTPError is re-raised unchanged; no later request is sent
        ([req], some code)

/-- A response _generate_campaigns recovers from: success, or conflict. -/
def okOr409 (r : CampaignResp) : Prop :=
  r = .success ∨ r = .httpError 409

instance (r : CampaignResp) : Decidable (okOr409 r) := by
  unfold okOr409; infer_instance

/-! ## URL request builder (_preprocess_urls)

The first loop materialises dataset.loc[dataset[camp_col] == campaign]
for each campaign; the second loop walks each group with iterrows and
builds one record per row.  On the pass_id_as_argument=False path the
source never assigns id_string, yet builds the record from
row[id_string], so the first row processed raises a NameError; the
embedding returns `Err.nameError` there. -/

structure UrlReq where
  id : String
  url_type : String
  url : String
  deriving Repr, DecidableEq

/-- Sequential map that stops at the first raised error, like the source
loops do. -/
def mapExcept {α β : Type} (f : α → Except Err β) : List α → Except Err (List β)
  | [] => .ok []
  | a :: as =>
    match f a with
    | .error e => .error e
    | .ok b =>
      match mapExcept f as with
      | .error e => .error e
      | .ok bs => .ok (b :: bs)

/-- Rows of the group dataset.loc[dataset[campaign_column_name] == campaign]. -/
def campaignRows (t : Table) (campaign_column_name campaign : String) : List Row :=
  t.rows.filter (fun r => rowGet r campaign_column_name == campaign)

def buildUrlRecord (pass_id_as_argument : Bool) (id_column_name redirect_url : String)
    (r : Row) : Except Err UrlReq :=
  if pass_id_as_argument then
    .ok { id := rowGet r id_column_name
          url_type := "URL"
          url := redirect_url ++ "/id=" ++ rowGet r id_column_name }
  else
    -- id_string is only assigned on the if-branch of the source, so the
    -- record construction reads an unbound local name here
    .error .nameError

def preprocessUrls (campaigns : List String)
    (id_column_name campaign_column_name redirect_url : String)
    (dataset : Table) (pass_id_as_argument : Bool) :
    Except Err (List (List UrlReq)) :=
  let campaign_data := campaigns.map (fun c => campaignRows dataset campaign_column_name c)
  mapExcept
    (fun group => mapExcept (buildUrlRecord pass_id_as_argument id_column_name redirect_url) group)
    campaign_data

/-! ## Code generator client (_generate_urls)

The source enumerates flowcodes and pairs each entry with the campaign
of the same index; the two lists have equal length in the pipeline, so
the embedding recurses over the zipped list.  The responses dictionary
(insertion ordered) is an association list; its values are the parsed
bodies the later .json() call exposes. -/

structure Image where
  url : String
  deriving Repr, DecidableEq

structure GenEntry where
  id : String
  images : List Image
  deriving Repr, DecidableEq

inductive CodesResp where
  | ok (body : List GenEntry)
  | httpError (code : Nat)
  deriving Repr, DecidableEq

structure CodesReq where
  client_id : String
  campaign_name : String
  urls : List UrlReq
  smart_rules : Option (List (String × String))
  deriving Repr, DecidableEq

/-- The JSON payload: smart_rules is included exactly when the caller
object is truthy, i.e. a non-empty dict. -/
def mkCodesData (client_id campaign_name : String) (urls : List UrlReq)
    (smart_rules : List (String × String)) : CodesReq :=
  if smart_rules.isEmpty then
    { client_id := client_id, campaign_name := campaign_name, urls := urls,
      smart_rules := none }
  else
    { client_id := client_id, campaign_name := campaign_name, urls := urls,
      smart_rules := some smart_rules }

def generateUrls (pairs : List (List UrlReq × String)) (client_id : String)
    (smart_rules : List (String × String)) (net : CodesReq → CodesResp) :
    List CodesReq × List (String × List GenEntry) × Option Nat :=
  match pairs with
  | [] => ([], [], none)
  | (fc, c) :: rest =>
    if fc.isEmpty then
      -- deals with errors caused by empty campaigns: nothing is sent
      generateUrls rest client_id smart_rules net
    else
      let req := mkCodesData client_id c fc smart_rules
      match net req with
      | .ok body =>
        let (rs, ms, e) := generateUrls rest client_id smart_rules net
        (req :: rs, (c, body) :: ms, e)
      | .httpError code =>
        if code = 409 then
          -- some URLs already exist: logged, no responses entry, continue
          let (rs, ms, e) := generateUrls rest client_id smart_rules net
          (req :: rs, ms, e)
        else
          ([req], [], some code)

/-- A batch response _generate_urls recovers from: any success body, or
the 409 conflict it logs and skips. -/
def codesOkOr409 : CodesResp → Prop
  | .ok _ => True
  | .httpError code => code = 409

/-! ## Response processor (_process_url_responses) -/

structure GenUrl where
  id : String
  qr_code : String
  deriving Repr, DecidableEq

/-- The extraction url[images][0][url]: indexing an empty images list
raises IndexError. -/
def processEntry (e : GenEntry) : Except Err GenUrl :=
  match e.images with
  | [] => .error .indexError
  | im :: _ => .ok { id := e.id, qr_code := im.url }

def processUrlResponses (responses : List (String × List GenEntry)) :
    Except Err (List (String × List GenUrl)) :=
  mapExcept
    (fun p =>
      match mapExcept processEntry p.2 with
      | .error e => .error e
      | .ok urls => .ok (p.1, urls))
    responses

/-! ## Image materializer (_generate_svgs)

The filesystem is a list of existing directory paths.  os.path.exists
guards the root mkdir only; each campaign mkdir is unconditional and
os.mkdir raises FileExistsError when the directory already exists.  The
image GET is an oracle from the qr_code URL to the downloaded bytes; the
function returns the trace of filesystem actions, the trace of image
fetches tagged with their campaign, and the path of a failed mkdir if
the run raised. -/

inductive FsAction where
  | mkdir (path : String)
  | write (path content : String)
  deriving Repr, DecidableEq

def campaignDirPath (root_dir campaign : String) : String :=
  root_dir ++ "/" ++ campaign

def svgFilePath (campaign_dir id : String) : String :=
  campaign_dir ++ "/" ++ id ++ ".svg"

def generateSvgsLoop (root_dir : String) (fetch : String → String)
    (fs : List String) :
    List (String × List GenUrl) → List FsAction × List (String × String) × Option String
  | [] => ([], [], none)
  | (campaign, urls) :: rest =>
    let campaign_dir := campaignDirPath root_dir campaign
    if campaign_dir ∈ fs then
      -- os.mkdir raises FileExistsError, aborting the run
      ([], [], some campaign_dir)
    else
      let writes := urls.map (fun u => FsAction.write (svgFilePath campaign_dir u.id) (fetch u.qr_code))
      let fetches := urls.map (fun u => (campaign, u.qr_code))
      let (as, fe, e) := generateSvgsLoop root_dir fetch (campaign_dir :: fs) rest
      (FsAction.mkdir campaign_dir :: writes ++ as, fetches ++ fe, e)

def generateSvgs (parent_dir : String) (fs : List String)
    (generated_urls : List (String × List GenUrl)) (fetch : String → String) :
    List FsAction × List (String × String) × Option String :=
  let root_dir := parent_dir ++ "/flowcode_images"
  if root_dir ∈ fs then
    generateSvgsLoop root_dir fetch fs generated_urls
  else
    let (as, fe, e) := generateSvgsLoop root_dir fetch (root_dir :: fs) generated_urls
    (FsAction.mkdir root_dir :: as, fe, e)

/-! ## The pipeline (generate_flowcodes)

The environment (both remote endpoints, the image GET, os.getcwd and the
existing directories) is a record of oracles.  The caller passes the
dataset object; every pandas operation the run applies to that object is
routed through a read-style accessor returning both its result and the
object value afterwards, and the run result reports the final value of
the caller object so that absence of mutation is a provable statement. -/

structure Oracles where
  netCampaign : CampaignReq → CampaignResp
  netCodes : CodesReq → CodesResp
  fetchImage : String → String
  cwd : String
  fs : List String

structure RunOut where
  campaignReqs : List CampaignReq
  codesReqs : List CodesReq
  fsActions : List FsAction
  imageFetches : List (String × String)
  result : Except Err String
  callerDataset : Table

/-- dataset.loc[:, [id_col, camp_col]]: returns a fresh two-column frame
and leaves the object it was called on unchanged. -/
def dfLocSelectCols (cs : List String) (t : Table) : Table × Table :=
  (locSelect cs t, t)

/-- dataset[col].unique(): a read returning the first-seen distinct
values, leaving the object unchanged. -/
def dfColUnique (c : String) (t : Table) : List String × Table :=
  (uniqueList (colValues t c), t)

def generateFlowcodes (client_id id_column_name campaign_column_name redirect_url : String)
    (dataset : Table) (smart_rules : List (String × String)) (parent_dir : String)
    (pass_id_as_argument : Bool) (o : Oracles) : RunOut :=
  match errorChecking client_id dataset id_column_name campaign_column_name with
  | .error e =>
    { campaignReqs := [], codesReqs := [], fsActions := [], imageFetches := [],
      result := .error e, callerDataset := dataset }
  | .ok () =>
    let parent := if parent_dir = "" then o.cwd else parent_dir
    let (ds, caller) := dfLocSelectCols [id_column_name, campaign_column_name] dataset
    let (campaigns, ds) := dfColUnique campaign_column_name ds
    let (creqs, cerr) := generateCampaigns campaigns client_id false o.netCampaign
    match cerr with
    | some code =>
      { campaignReqs := creqs, codesReqs := [], fsActions := [], imageFetches := [],
        result := .error (.http code), callerDataset := caller }
    | none =>
      match preprocessUrls campaigns id_column_name campaign_column_name
          redirect_url ds pass_id_as_argument with
      | .error e =>
        { campaignReqs := creqs, codesReqs := [], fsActions := [], imageFetches := [],
          result := .error e, callerDataset := caller }
      | .ok flowcodes =>
        let (ureqs, responses, uerr) :=
          generateUrls (flowcodes.zip campaigns) client_id smart_rules o.netCodes
        match uerr with
        | some code =>
          { campaignReqs := creqs, codesReqs := ureqs, fsActions := [], imageFetches := [],
            result := .error (.http code), callerDataset := caller }
        | none =>
          match processUrlResponses responses with
          | .error e =>
            { campaignReqs := creqs, codesReqs := ureqs, fsActions := [], imageFetches := [],
              result := .error e, callerDataset := caller }
          | .ok generated_urls =>
            let (acts, fetches, serr) := generateSvgs parent o.fs generated_urls o.fetchImage
            match serr with
            | some p =>
              { campaignReqs := creqs, codesReqs := ureqs, fsActions := acts,
                imageFetches := fetches, result := .error (.fileExists p),
                callerDataset := caller }
            | none =>
              { campaignReqs := creqs, codesReqs := ureqs, fsActions := acts,
                imageFetches := fetches, result := .ok "Flowcodes Generated",
                callerDataset := caller }

/-! ## Campaign partition

dataset.loc[dataset[campaign_column_name] == campaign] keeps the pandas
row labels of the selected rows, so for partition statements the rows are
made identifiable by pairing each with its positional label via
List.enum; `campaignPartition` is the list of those labelled groups, one
per first-seen campaign value. -/

def campaignPartition (t : Table) (campaign_column_name : String) :
    List (List (Nat × Row)) :=
  (uniqueList (colValues t campaign_column_name)).map
    (fun c => t.rows.enum.filter (fun p => rowGet p.2 campaign_column_name == c))

/-! ## Example fixture

The two-row table of the end-to-end scenario in the spec: ids x1, x2,
both in campaign A. -/

def exTable : Table :=
  { cols := ["id", "camp"],
    rows := [[("id", "x1"), ("camp", "A")], [("id", "x2"), ("camp", "A")]] }

/-! ## Helper lemmas -/

theorem mapExcept_ok {α β : Type} (f : α → Except Err β) (g : α → β) :
    ∀ l : List α, (∀ a ∈ l, f a = .ok (g a)) → mapExcept f l = .ok (l.map g) := by
  intro l
  induction l with
  | nil => intro _; rfl
  | cons a as ih =>
    intro h
    simp only [mapExcept]
    rw [h a (by simp), ih (fun x hx => h x (by simp [hx]))]
    rfl

theorem mem_uniqueList {a : String} : ∀ {l : List String}, a ∈ uniqueList l ↔ a ∈ l := by
  intro l
  induction l with
  | nil => simp [uniqueList]
  | cons b bs ih =>
    simp only [uniqueList, List.mem_cons, List.mem_filter]
    by_cases hab : a = b
    · simp [hab]
    · simp [hab, ih]

theorem nodup_uniqueList : ∀ l : List String, (uniqueList l).Nodup := by
  intro l
  induction l with
  | nil => simp [uniqueList]
  | cons b bs ih =>
    simp only [uniqueList, List.nodup_cons]
    refine ⟨?_, ih.filter _⟩
    intro hmem
    have h2 := (List.mem_filter.mp hmem).2
    simp at h2

theorem isLowerHex_imp_isLowerAlnum {c : Char} (h : isLowerHex c = true) :
    isLowerAlnum c = true := by
  simp only [isLowerHex, isLowerAlnum, Bool.or_eq_true, Bool.and_eq_true,
    decide_eq_true_eq] at h ⊢
  omega

theorem matchGroupsHex_imp_matchGroups :
    ∀ (gs : List Nat) (cs : List Char),
      matchGroupsHex gs cs = true → matchGroups gs cs = true := by
  intro gs
  induction gs with
  | nil => intro cs h; exact h
  | cons n ns ih =>
    intro cs h
    simp only [matchGroupsHex, Bool.and_eq_true] at h
    simp only [matchGroups, Bool.and_eq_true]
    refine ⟨⟨h.1.1, ?_⟩, ?_⟩
    · exact List.all_eq_true.mpr fun c hc =>
        isLowerHex_imp_isLowerAlnum (List.all_eq_true.mp h.1.2 c hc)
    · cases ns with
      | nil => exact h.2
      | cons m ms =>
        have h2 : (match cs.drop n with
                   | '-' :: r => matchGroupsHex (m :: ms) r
                   | _ => false) = true := h.2
        show (match cs.drop n with
              | '-' :: r => matchGroups (m :: ms) r
              | _ => false) = true
        split at h2
        · rename_i r heq
          exact ih r h2
        · simp at h2


/-- A concrete environment for witness instantiations: every remote call
succeeds with an empty body, images echo their URL, empty filesystem. -/
def exOracles : Oracles :=
  { netCampaign := fun _ => .success
    netCodes := fun _ => .ok []
    fetchImage := fun u => u
    cwd := "/cwd"
    fs := [] }

/-- C1: the claim says that with pass_id_as_argument = false,
_preprocess_urls succeeds and gives every row the bare redirect target as
url.  In the source, id_string is assigned only on the true branch while
the record construction reads row[id_string] unconditionally, so on the
false branch the first processed row raises NameError: evaluated here on
a one-row table, and shown for every row record built on that branch. -/
theorem c1_flag_false_raises_nameError :
    preprocessUrls ["A"] "id" "camp" "http://example.com"
      { cols := ["id", "camp"], rows := [[("id", "x1"), ("camp", "A")]] } false
      = .error .nameError
    ∧ ∀ (id_column_name redirect_url : String) (r : Row),
        buildUrlRecord false id_column_name redirect_url r = .error .nameError := by
  constructor
  · rfl
  · intro idc ru r; rfl

/-- C2 counterexample: "zzzzzzzz-zzzz-zzzz-zzzz-zzzzzzzzzzzz" does not
match the canonical lowercase-hexadecimal UUID pattern, yet
_error_checking accepts it, because the character class in the code is
[a-z0-9], not hexadecimal. -/
theorem c2_counterexample_nonhex_id_accepted :
    specClientIdOk "zzzzzzzz-zzzz-zzzz-zzzz-zzzzzzzzzzzz" = false
    ∧ errorChecking "zzzzzzzz-zzzz-zzzz-zzzz-zzzzzzzzzzzz" exTable "id" "camp" = .ok () := by
  constructor
  · decide
  · rfl

/-- C2 (amended): every client id rejected by the [a-z0-9] 8-4-4-4-12
pattern of the code makes the run fail with the format error before any
network request, filesystem action or image fetch; and every id matching
the lowercase-hexadecimal UUID shape passes validation on a well-formed
table. -/
theorem c2_code_pattern_gates_validation :
    (∀ (client_id id_column_name campaign_column_name redirect_url : String)
       (dataset : Table) (smart_rules : List (String × String)) (parent_dir : String)
       (pass_id_as_argument : Bool) (o : Oracles),
       codeClientIdOk client_id = false →
         (generateFlowcodes client_id id_column_name campaign_column_name redirect_url
            dataset smart_rules parent_dir pass_id_as_argument o).result
           = .error .clientIdFormat
         ∧ (generateFlowcodes client_id id_column_name campaign_column_name redirect_url
            dataset smart_rules parent_dir pass_id_as_argument o).campaignReqs = []
         ∧ (generateFlowcodes client_id id_column_name campaign_column_name redirect_url
            dataset smart_rules parent_dir pass_id_as_argument o).codesReqs = []
         ∧ (generateFlowcodes client_id id_column_name campaign_column_name redirect_url
            dataset smart_rules parent_dir pass_id_as_argument o).fsActions = []
         ∧ (generateFlowcodes client_id id_column_name campaign_column_name redirect_url
            dataset smart_rules parent_dir pass_id_as_argument o).imageFetches = [])
    ∧ (∀ (client_id : String) (dataset : Table)
         (id_column_name campaign_column_name : String),
         specClientIdOk client_id = true →
         id_column_name ∈ dataset.cols →
         campaign_column_name ∈ dataset.cols →
         errorChecking client_id dataset id_column_name campaign_column_name = .ok ()) := by
  constructor
  · intro cid idc cc ru t sr pd pia o h
    simp [generateFlowcodes, errorChecking, h]
  · intro cid t idc cc hspec h1 h2
    have hcode : codeClientIdOk cid = true :=
      matchGroupsHex_imp_matchGroups [8, 4, 4, 4, 12] cid.data hspec
    simp [errorChecking, hcode, h1, h2]

theorem c2_code_pattern_gates_validation_witness :
    ((generateFlowcodes "NOT-A-UUID" "id" "camp" "http://example.com" exTable [] ""
        true exOracles).result = .error .clientIdFormat)
    ∧ errorChecking "d929d46a-7eba-11ec-90d6-0242ac120003" exTable "id" "camp" = .ok () :=
  ⟨(c2_code_pattern_gates_validation.1 "NOT-A-UUID" "id" "camp" "http://example.com"
      exTable [] "" true exOracles (by decide)).1,
   c2_code_pattern_gates_validation.2 "d929d46a-7eba-11ec-90d6-0242ac120003" exTable
     "id" "camp" (by decide) (by decide) (by decide)⟩

/-- C7: the batch payload carries smart_rules verbatim exactly when the
caller object is non-empty, omits the field when it is empty, and the
remaining fields are the same either way. -/
theorem c7_smart_rules_passthrough :
    ∀ (client_id campaign_name : String) (urls : List UrlReq)
      (smart_rules : List (String × String)),
      (smart_rules ≠ [] →
        (mkCodesData client_id campaign_name urls smart_rules).smart_rules
          = some smart_rules)
      ∧ (smart_rules = [] →
        (mkCodesData client_id campaign_name urls smart_rules).smart_rules = none)
      ∧ (mkCodesData client_id campaign_name urls smart_rules).client_id = client_id
      ∧ (mkCodesData client_id campaign_name urls smart_rules).campaign_name
          = campaign_name
      ∧ (mkCodesData client_id campaign_name urls smart_rules).urls = urls := by
  intro cid cname urls sr
  unfold mkCodesData
  rcases sr with _ | ⟨p, ps⟩ <;> simp

theorem c7_smart_rules_passthrough_witness :
    (mkCodesData "cid" "A" [] [("rule", "v")]).smart_rules = some [("rule", "v")]
    ∧ (mkCodesData "cid" "A" [] []).smart_rules = none :=
  ⟨(c7_smart_rules_passthrough "cid" "A" [] [("rule", "v")]).1 (by simp),
   (c7_smart_rules_passthrough "cid" "A" [] []).2.1 rfl⟩

/-- C10: the caller dataset object is identical after the run on every
path, completed or aborted: the column selection builds a fresh
two-column frame bound to a local name and all later stages only read. -/
theorem c10_caller_dataset_unchanged :
    ∀ (client_id id_column_name campaign_column_name redirect_url : String)
      (dataset : Table) (smart_rules : List (String × String)) (parent_dir : String)
      (pass_id_as_argument : Bool) (o : Oracles),
      (generateFlowcodes client_id id_column_name campaign_column_name redirect_url
        dataset smart_rules parent_dir pass_id_as_argument o).callerDataset = dataset := by
  intro cid idc cc ru t sr pd pia o
  unfold generateFlowcodes dfLocSelectCols dfColUnique
  repeat' split
  all_goals simp_all
  all_goals (split <;> rfl)

/-- C3: a 409 from campaign creation is skipped and every later campaign
is still requested; any other HTTPError code is re-raised unchanged and
no request after the failing one is issued. -/
theorem c3_campaign_409_skipped_other_errors_fatal :
    (∀ (campaigns : List String) (client_id : String) (reserved_urls : Bool)
       (net : CampaignReq → CampaignResp),
       (∀ c ∈ campaigns, okOr409 (net (mkCampaignReq c client_id reserved_urls))) →
       generateCampaigns campaigns client_id reserved_urls net
         = (campaigns.map (fun c => mkCampaignReq c client_id reserved_urls), none))
    ∧ (∀ (pre : List String) (c : String) (post : List String) (client_id : String)
         (reserved_urls : Bool) (net : CampaignReq → CampaignResp) (code : Nat),
         (∀ x ∈ pre, okOr409 (net (mkCampaignReq x client_id reserved_urls))) →
         net (mkCampaignReq c client_id reserved_urls) = .httpError code →
         code ≠ 409 →
         generateCampaigns (pre ++ c :: post) client_id reserved_urls net
           = ((pre ++ [c]).map (fun x => mkCampaignReq x client_id reserved_urls),
              some code)) := by
  constructor
  · intro campaigns cid ru net h
    induction campaigns with
    | nil => rfl
    | cons c rest ih =>
      have hc := h c (by simp)
      have hrest := ih (fun x hx => h x (by simp [hx]))
      rcases hc with hc | hc <;>
        simp [generateCampaigns, hc, hrest]
  · intro pre c post cid ru net code hpre hc hcode
    induction pre with
    | nil =>
      simp [generateCampaigns, hc, hcode]
    | cons p ps ih =>
      have hp := hpre p (by simp)
      have hps := ih (fun x hx => hpre x (by simp [hx]))
      rcases hp with hp | hp <;>
        simp [generateCampaigns, hp, hps]

theorem c3_campaign_409_skipped_other_errors_fatal_witness :
    (generateCampaigns ["A", "B"] "cid" false
        (fun r => if r.name = "A" then .httpError 409 else .success)
      = ([mkCampaignReq "A" "cid" false, mkCampaignReq "B" "cid" false], none))
    ∧ (generateCampaigns ["A", "B", "C"] "cid" false
        (fun r => if r.name = "B" then .httpError 500 else .success)
      = ([mkCampaignReq "A" "cid" false, mkCampaignReq "B" "cid" false], some 500)) :=
  ⟨c3_campaign_409_skipped_other_errors_fatal.1 ["A", "B"] "cid" false
     (fun r => if r.name = "A" then .httpError 409 else .success)
     (by intro c hc; fin_cases hc <;> simp [okOr409, mkCampaignReq]),
   c3_campaign_409_skipped_other_errors_fatal.2 ["A"] "B" ["C"] "cid" false
     (fun r => if r.name = "B" then .httpError 500 else .success) 500
     (by intro x hx; fin_cases hx; simp [okOr409, mkCampaignReq])
     (by simp [mkCampaignReq]) (by decide)⟩

/-- C4: with pass_id_as_argument = true the builder succeeds, the
scenario table (ids x1, x2 in campaign A) yields the single sequence
x1 then x2 with urls http://example.com/id=x1 and /id=x2, and in general
each first-seen campaign contributes, in campaign order, its rows in
encounter order, each record carrying redirect ++ "/id=" ++ id. -/
theorem c4_flag_true_urls_and_order :
    (preprocessUrls (uniqueList (colValues exTable "camp")) "id" "camp"
        "http://example.com" exTable true
      = .ok [[{ id := "x1", url_type := "URL", url := "http://example.com/id=x1" },
              { id := "x2", url_type := "URL", url := "http://example.com/id=x2" }]])
    ∧ ∀ (dataset : Table) (id_column_name campaign_column_name redirect_url : String),
        preprocessUrls (uniqueList (colValues dataset campaign_column_name))
            id_column_name campaign_column_name redirect_url dataset true
          = .ok ((uniqueList (colValues dataset campaign_column_name)).map
              (fun c => (campaignRows dataset campaign_column_name c).map
                (fun r =>
                  { id := rowGet r id_column_name
                    url_type := "URL"
                    url := redirect_url ++ "/id=" ++ rowGet r id_column_name }))) := by
  constructor
  · rfl
  · intro t idc cc ru
    have hinner : ∀ group ∈ (uniqueList (colValues t cc)).map
          (fun c => campaignRows t cc c),
        mapExcept (buildUrlRecord true idc ru) group
          = .ok (group.map (fun r =>
              ({ id := rowGet r idc, url_type := "URL",
                 url := ru ++ "/id=" ++ rowGet r idc } : UrlReq))) :=
      fun group _ => mapExcept_ok _ _ group (fun r _ => rfl)
    have houter := mapExcept_ok
      (fun group => mapExcept (buildUrlRecord true idc ru) group)
      (fun group => group.map (fun r =>
        ({ id := rowGet r idc, url_type := "URL",
           url := ru ++ "/id=" ++ rowGet r idc } : UrlReq)))
      ((uniqueList (colValues t cc)).map (fun c => campaignRows t cc c)) hinner
    simp only [preprocessUrls]
    rw [houter, List.map_map]
    rfl

/-- A two-campaign fixture: x1 in campaign A, x2 in campaign B. -/
def exTable2 : Table :=
  { cols := ["id", "camp"],
    rows := [[("id", "x1"), ("camp", "A")], [("id", "x2"), ("camp", "B")]] }

/-- C5: the per-campaign groups cut from the table are pairwise
disjoint, together they cover exactly the rows of the table, and a row
lies in the group of index i exactly when its campaign value is the
i-th first-seen campaign. -/
theorem c5_partition :
    ∀ (t : Table) (campaign_column_name : String),
      ((campaignPartition t campaign_column_name).length
          = (uniqueList (colValues t campaign_column_name)).length)
      ∧ (∀ (i j : Fin (campaignPartition t campaign_column_name).length),
          i.1 ≠ j.1 → ∀ p, p ∈ (campaignPartition t campaign_column_name).get i →
            p ∉ (campaignPartition t campaign_column_name).get j)
      ∧ (∀ p, p ∈ t.rows.enum ↔ ∃ l ∈ campaignPartition t campaign_column_name, p ∈ l)
      ∧ (∀ (i : Fin (uniqueList (colValues t campaign_column_name)).length) p,
          p ∈ (campaignPartition t campaign_column_name).get
              (Fin.cast (by simp [campaignPartition]) i) ↔
            p ∈ t.rows.enum ∧ rowGet p.2 campaign_column_name
              = (uniqueList (colValues t campaign_column_name)).get i) := by
  intro t cc
  have hlen : (campaignPartition t cc).length = (uniqueList (colValues t cc)).length := by
    simp [campaignPartition]
  have hget : ∀ (i : Fin (uniqueList (colValues t cc)).length),
      (campaignPartition t cc).get (Fin.cast hlen.symm i)
        = t.rows.enum.filter
            (fun q => rowGet q.2 cc == (uniqueList (colValues t cc)).get i) := by
    intro i
    simp [campaignPartition, List.get_eq_getElem]
  have hmem : ∀ (i : Fin (uniqueList (colValues t cc)).length) p,
      p ∈ (campaignPartition t cc).get (Fin.cast hlen.symm i) ↔
        p ∈ t.rows.enum ∧ rowGet p.2 cc = (uniqueList (colValues t cc)).get i := by
    intro i p
    rw [hget i, List.mem_filter]
    simp
  refine ⟨hlen, ?_, ?_, fun i p => hmem i p⟩
  · intro i j hne p hpi hpj
    have hi := (hmem (Fin.cast hlen i) p).mp (by simpa using hpi)
    have hj := (hmem (Fin.cast hlen j) p).mp (by simpa using hpj)
    have heq : (uniqueList (colValues t cc)).get (Fin.cast hlen i)
        = (uniqueList (colValues t cc)).get (Fin.cast hlen j) :=
      hi.2 ▸ hj.2
    have hcast := ((nodup_uniqueList (colValues t cc)).get_inj_iff).mp heq
    have hv : i.1 = j.1 := by simpa using congrArg Fin.val hcast
    exact hne hv
  · intro p
    constructor
    · intro hp
      have hp2 : p.2 ∈ t.rows := by
        have hq := List.mem_enum_iff_getElem?.mp hp
        exact List.mem_iff_getElem?.mpr ⟨p.1, hq⟩
      have hv : rowGet p.2 cc ∈ uniqueList (colValues t cc) :=
        mem_uniqueList.mpr (List.mem_map_of_mem (fun r => rowGet r cc) hp2)
      refine ⟨t.rows.enum.filter (fun q => rowGet q.2 cc == rowGet p.2 cc), ?_, ?_⟩
      · exact List.mem_map_of_mem
          (fun c => t.rows.enum.filter (fun q => rowGet q.2 cc == c)) hv
      · exact List.mem_filter.mpr ⟨hp, by simp⟩
    · rintro ⟨l, hl, hpl⟩
      rcases List.mem_map.mp hl with ⟨c, _, rfl⟩
      exact (List.mem_filter.mp hpl).1

theorem c5_partition_witness :
    ((0 : Nat), ([("id", "x1"), ("camp", "A")] : Row))
      ∉ (campaignPartition exTable2 "camp").get ⟨1, by decide⟩ :=
  (c5_partition exTable2 "camp").2.1 ⟨0, by decide⟩ ⟨1, by decide⟩ (by decide)
    ((0 : Nat), ([("id", "x1"), ("camp", "A")] : Row)) (by decide)

/-! Equation lemmas for _generate_urls, one per branch of its loop body. -/

theorem generateUrls_nil (client_id : String) (smart_rules : List (String × String))
    (net : CodesReq → CodesResp) :
    generateUrls [] client_id smart_rules net = ([], [], none) := rfl

theorem generateUrls_cons_empty {fc : List UrlReq} (h : fc.isEmpty)
    (c : String) (rest : List (List UrlReq × String)) (client_id : String)
    (smart_rules : List (String × String)) (net : CodesReq → CodesResp) :
    generateUrls ((fc, c) :: rest) client_id smart_rules net
      = generateUrls rest client_id smart_rules net := by
  simp only [generateUrls, h, if_pos]

theorem generateUrls_cons_ok {fc : List UrlReq} (h : ¬ fc.isEmpty)
    {c : String} {rest : List (List UrlReq × String)} {client_id : String}
    {smart_rules : List (String × String)} {net : CodesReq → CodesResp}
    {body : List GenEntry}
    (hnet : net (mkCodesData client_id c fc smart_rules) = .ok body) :
    generateUrls ((fc, c) :: rest) client_id smart_rules net
      = (mkCodesData client_id c fc smart_rules
           :: (generateUrls rest client_id smart_rules net).1,
         (c, body) :: (generateUrls rest client_id smart_rules net).2.1,
         (generateUrls rest client_id smart_rules net).2.2) := by
  simp only [generateUrls, if_neg h]
  rw [hnet]

theorem generateUrls_cons_409 {fc : List UrlReq} (h : ¬ fc.isEmpty)
    {c : String} {rest : List (List UrlReq × String)} {client_id : String}
    {smart_rules : List (String × String)} {net : CodesReq → CodesResp}
    (hnet : net (mkCodesData client_id c fc smart_rules) = .httpError 409) :
    generateUrls ((fc, c) :: rest) client_id smart_rules net
      = (mkCodesData client_id c fc smart_rules
           :: (generateUrls rest client_id smart_rules net).1,
         (generateUrls rest client_id smart_rules net).2.1,
         (generateUrls rest client_id smart_rules net).2.2) := by
  simp only [generateUrls, if_neg h]
  rw [hnet]
  rfl

theorem generateUrls_cons_err {fc : List UrlReq} (h : ¬ fc.isEmpty)
    {c : String} {rest : List (List UrlReq × String)} {client_id : String}
    {smart_rules : List (String × String)} {net : CodesReq → CodesResp}
    {code : Nat}
    (hnet : net (mkCodesData client_id c fc smart_rules) = .httpError code)
    (hc : code ≠ 409) :
    generateUrls ((fc, c) :: rest) client_id smart_rules net
      = ([mkCodesData client_id c fc smart_rules], [], some code) := by
  simp only [generateUrls, if_neg h]
  rw [hnet]
  simp [hc]

theorem mkCodesData_campaign_name (client_id c : String) (fc : List UrlReq)
    (smart_rules : List (String × String)) :
    (mkCodesData client_id c fc smart_rules).campaign_name = c := by
  unfold mkCodesData
  split <;> rfl

/-- Every request issued by _generate_urls names the campaign of one of
its input pairs. -/
theorem generateUrls_req_campaign_mem :
    ∀ (pairs : List (List UrlReq × String)) (client_id : String)
      (smart_rules : List (String × String)) (net : CodesReq → CodesResp)
      (r : CodesReq), r ∈ (generateUrls pairs client_id smart_rules net).1 →
        r.campaign_name ∈ pairs.map Prod.snd := by
  intro pairs cid sr net
  induction pairs with
  | nil => intro r hr; simp [generateUrls_nil] at hr
  | cons pc rest ih =>
    intro r hr
    rcases pc with ⟨fc, c⟩
    by_cases hfc : fc.isEmpty
    · rw [generateUrls_cons_empty hfc] at hr
      exact List.mem_cons_of_mem _ (ih r hr)
    · rcases hnet : net (mkCodesData cid c fc sr) with body | code
      · rw [generateUrls_cons_ok hfc hnet] at hr
        rcases List.mem_cons.mp hr with hr | hr
        · subst hr; simp [mkCodesData_campaign_name]
        · exact List.mem_cons_of_mem _ (ih r hr)
      · by_cases hc : code = 409
        · subst hc
          rw [generateUrls_cons_409 hfc hnet] at hr
          rcases List.mem_cons.mp hr with hr | hr
          · subst hr; simp [mkCodesData_campaign_name]
          · exact List.mem_cons_of_mem _ (ih r hr)
        · rw [generateUrls_cons_err hfc hnet hc] at hr
          rcases List.mem_singleton.mp hr with rfl
          simp [mkCodesData_campaign_name]

/-- Every key of the responses mapping of _generate_urls is the campaign
of one of its input pairs. -/
theorem generateUrls_resp_key_mem :
    ∀ (pairs : List (List UrlReq × String)) (client_id : String)
      (smart_rules : List (String × String)) (net : CodesReq → CodesResp)
      (k : String),
      k ∈ ((generateUrls pairs client_id smart_rules net).2.1).map Prod.fst →
        k ∈ pairs.map Prod.snd := by
  intro pairs cid sr net
  induction pairs with
  | nil => intro k hk; simp [generateUrls_nil] at hk
  | cons pc rest ih =>
    intro k hk
    rcases pc with ⟨fc, c⟩
    by_cases hfc : fc.isEmpty
    · rw [generateUrls_cons_empty hfc] at hk
      exact List.mem_cons_of_mem _ (ih k hk)
    · rcases hnet : net (mkCodesData cid c fc sr) with body | code
      · rw [generateUrls_cons_ok hfc hnet] at hk
        simp only [List.map_cons, List.mem_cons] at hk
        rcases hk with hk | hk
        · simp [hk]
        · exact List.mem_cons_of_mem _ (ih k hk)
      · by_cases hc : code = 409
        · subst hc
          rw [generateUrls_cons_409 hfc hnet] at hk
          exact List.mem_cons_of_mem _ (ih k hk)
        · rw [generateUrls_cons_err hfc hnet hc] at hk
          simp at hk

/-- C6: a pair with an empty URL-request sequence is a perfect no-op of
_generate_urls (the run equals the run on the remaining pairs), and when
no other pair reuses its campaign name, no issued request and no
responses key carries that campaign. -/
theorem c6_empty_campaign_skipped :
    ∀ (pre post : List (List UrlReq × String)) (c : String) (client_id : String)
      (smart_rules : List (String × String)) (net : CodesReq → CodesResp),
      (generateUrls (pre ++ ([], c) :: post) client_id smart_rules net
        = generateUrls (pre ++ post) client_id smart_rules net)
      ∧ ((∀ p ∈ pre ++ post, p.2 ≠ c) →
          (∀ r ∈ (generateUrls (pre ++ ([], c) :: post) client_id smart_rules net).1,
              r.campaign_name ≠ c)
          ∧ c ∉ ((generateUrls (pre ++ ([], c) :: post) client_id
              smart_rules net).2.1).map Prod.fst) := by
  intro pre post c cid sr net
  have hskip : generateUrls (pre ++ ([], c) :: post) cid sr net
      = generateUrls (pre ++ post) cid sr net := by
    induction pre with
    | nil =>
      simp only [List.nil_append]
      exact @generateUrls_cons_empty [] (by rfl) c post cid sr net
    | cons pc rest ih =>
      rcases pc with ⟨fc, c'⟩
      by_cases hfc : fc.isEmpty
      · rw [List.cons_append, List.cons_append,
          generateUrls_cons_empty hfc, generateUrls_cons_empty hfc, ih]
      · rcases hnet : net (mkCodesData cid c' fc sr) with body | code
        · rw [List.cons_append, List.cons_append,
            generateUrls_cons_ok hfc hnet, generateUrls_cons_ok hfc hnet, ih]
        · by_cases hc : code = 409
          · subst hc
            rw [List.cons_append, List.cons_append,
              generateUrls_cons_409 hfc hnet, generateUrls_cons_409 hfc hnet, ih]
          · rw [List.cons_append, List.cons_append,
              generateUrls_cons_err hfc hnet hc, generateUrls_cons_err hfc hnet hc]
  refine ⟨hskip, fun hother => ⟨?_, ?_⟩⟩
  · intro r hr hname
    rw [hskip] at hr
    have hm := generateUrls_req_campaign_mem (pre ++ post) cid sr net r hr
    rw [hname] at hm
    rcases List.mem_map.mp hm with ⟨p, hp, hpc⟩
    exact hother p hp hpc
  · intro hk
    rw [hskip] at hk
    have hm := generateUrls_resp_key_mem (pre ++ post) cid sr net c hk
    rcases List.mem_map.mp hm with ⟨p, hp, hpc⟩
    exact hother p hp hpc

theorem c6_empty_campaign_skipped_witness :
    (generateUrls [([], "E"),
        ([{ id := "x1", url_type := "URL", url := "u" }], "A")] "cid" []
        (fun _ => .ok [])
      = generateUrls [([{ id := "x1", url_type := "URL", url := "u" }], "A")]
        "cid" [] (fun _ => .ok []))
    ∧ ("E" ∉ ((generateUrls [([], "E"),
        ([{ id := "x1", url_type := "URL", url := "u" }], "A")] "cid" []
        (fun _ => .ok [])).2.1).map Prod.fst) :=
  ⟨(c6_empty_campaign_skipped [] [([{ id := "x1", url_type := "URL", url := "u" }], "A")]
      "E" "cid" [] (fun _ => .ok [])).1,
   ((c6_empty_campaign_skipped [] [([{ id := "x1", url_type := "URL", url := "u" }], "A")]
      "E" "cid" [] (fun _ => .ok [])).2 (by decide)).2⟩

/-- Parsing the responses mapping preserves its keys in order. -/
theorem processUrlResponses_keys :
    ∀ (responses : List (String × List GenEntry)) (gen : List (String × List GenUrl)),
      processUrlResponses responses = .ok gen →
        gen.map Prod.fst = responses.map Prod.fst := by
  intro responses
  induction responses with
  | nil =>
    intro gen h
    simp only [processUrlResponses, mapExcept] at h
    cases h
    rfl
  | cons p ps ih =>
    intro gen h
    simp only [processUrlResponses, mapExcept] at h
    rcases hp : (mapExcept processEntry p.2) with e | urls
    · rw [hp] at h; cases h
    · rw [hp] at h
      simp only at h
      rcases hrest : mapExcept
          (fun p => match mapExcept processEntry p.2 with
            | .error e => Except.error e
            | .ok urls => Except.ok (p.1, urls)) ps with e | bs
      · rw [hrest] at h; cases h
      · rw [hrest] at h
        cases h
        have := ih bs hrest
        simp [this]

/-- Every image fetch of the materialiser loop belongs to one of its
campaigns. -/
theorem generateSvgsLoop_fetch_campaign_mem :
    ∀ (gen : List (String × List GenUrl)) (root_dir : String)
      (fetch : String → String) (fs : List String) (p : String × String),
      p ∈ (generateSvgsLoop root_dir fetch fs gen).2.1 → p.1 ∈ gen.map Prod.fst := by
  intro gen
  induction gen with
  | nil => intro root fetch fs p hp; simp [generateSvgsLoop] at hp
  | cons g rest ih =>
    intro root fetch fs p hp
    rcases g with ⟨c, urls⟩
    by_cases hdir : campaignDirPath root c ∈ fs
    · simp only [generateSvgsLoop, if_pos hdir] at hp
      simp at hp
    · simp only [generateSvgsLoop, if_neg hdir] at hp
      rcases List.mem_append.mp hp with hp | hp
      · rcases List.mem_map.mp hp with ⟨u, _, rfl⟩
        simp
      · exact List.mem_cons_of_mem _ (ih root fetch _ p hp)

/-- C8: a 409 on a batch submission leaves the responses mapping and the
final error exactly as if that pair had not been processed; a non-409
error aborts with that code as the only outcome; when every submission
succeeds or 409s, the mapping holds exactly the successful submissions in
order and no error is raised; response parsing preserves the mapping
keys; and every downstream image fetch is tagged with a campaign that has
a mapping entry — so a 409-skipped campaign, having no entry, is never
retrieved and never produces an image. -/
theorem c8_url_409_no_entry_no_image :
    (∀ (pre : List (List UrlReq × String)) (fc : List UrlReq) (c : String)
       (post : List (List UrlReq × String)) (client_id : String)
       (smart_rules : List (String × String)) (net : CodesReq → CodesResp),
       ¬ fc.isEmpty →
       net (mkCodesData client_id c fc smart_rules) = .httpError 409 →
       (generateUrls (pre ++ (fc, c) :: post) client_id smart_rules net).2
         = (generateUrls (pre ++ post) client_id smart_rules net).2)
    ∧ (∀ (fc : List UrlReq) (c : String) (post : List (List UrlReq × String))
         (client_id : String) (smart_rules : List (String × String))
         (net : CodesReq → CodesResp) (code : Nat),
         ¬ fc.isEmpty →
         net (mkCodesData client_id c fc smart_rules) = .httpError code →
         code ≠ 409 →
         generateUrls ((fc, c) :: post) client_id smart_rules net
           = ([mkCodesData client_id c fc smart_rules], [], some code))
    ∧ (∀ (pairs : List (List UrlReq × String)) (client_id : String)
         (smart_rules : List (String × String)) (net : CodesReq → CodesResp),
         (∀ p ∈ pairs, codesOkOr409 (net (mkCodesData client_id p.2 p.1 smart_rules))) →
         (generateUrls pairs client_id smart_rules net).2.1
           = pairs.filterMap (fun p =>
               if p.1.isEmpty then none
               else
                 match net (mkCodesData client_id p.2 p.1 smart_rules) with
                 | .ok body => some (p.2, body)
                 | .httpError _ => none)
         ∧ (generateUrls pairs client_id smart_rules net).2.2 = none)
    ∧ (∀ (responses : List (String × List GenEntry)) (gen : List (String × List GenUrl)),
         processUrlResponses responses = .ok gen →
           gen.map Prod.fst = responses.map Prod.fst)
    ∧ (∀ (parent_dir : String) (fs : List String)
         (gen : List (String × List GenUrl)) (fetch : String → String)
         (p : String × String),
         p ∈ (generateSvgs parent_dir fs gen fetch).2.1 → p.1 ∈ gen.map Prod.fst) := by
  refine ⟨?_, ?_, ?_, processUrlResponses_keys, ?_⟩
  · intro pre fc c post cid sr net hfc hnet
    induction pre with
    | nil =>
      simp only [List.nil_append]
      rw [generateUrls_cons_409 hfc hnet]
    | cons pc rest ih =>
      rcases pc with ⟨fc', c'⟩
      by_cases hfc' : fc'.isEmpty
      · rw [List.cons_append, List.cons_append,
          generateUrls_cons_empty hfc', generateUrls_cons_empty hfc']
        exact ih
      · rcases hnet' : net (mkCodesData cid c' fc' sr) with body | code
        · rw [List.cons_append, List.cons_append,
            generateUrls_cons_ok hfc' hnet', generateUrls_cons_ok hfc' hnet']
          have h1 := congrArg Prod.fst ih
          have h2 := congrArg Prod.snd ih
          simp only at h1 h2
          simp [h1, h2]
        · by_cases hc : code = 409
          · subst hc
            rw [List.cons_append, List.cons_append,
              generateUrls_cons_409 hfc' hnet', generateUrls_cons_409 hfc' hnet']
            have h1 := congrArg Prod.fst ih
            have h2 := congrArg Prod.snd ih
            simp only at h1 h2
            simp [h1, h2]
          · rw [List.cons_append, List.cons_append,
              generateUrls_cons_err hfc' hnet' hc, generateUrls_cons_err hfc' hnet' hc]
  · intro fc c post cid sr net code hfc hnet hc
    exact generateUrls_cons_err hfc hnet hc
  · intro pairs cid sr net hok
    induction pairs with
    | nil => simp [generateUrls_nil]
    | cons pc rest ih =>
      have hrest := ih (fun p hp => hok p (by simp [hp]))
      rcases pc with ⟨fc, c⟩
      by_cases hfc : fc.isEmpty
      · rw [generateUrls_cons_empty hfc]
        simp only [List.filterMap_cons, hfc, if_pos]
        exact hrest
      · have hokc := hok (fc, c) (by simp)
        rcases hnet : net (mkCodesData cid c fc sr) with body | code
        · rw [generateUrls_cons_ok hfc hnet]
          simp only [List.filterMap_cons, hfc, if_neg, Bool.false_eq_true,
            not_false_eq_true, hnet]
          exact ⟨by simp [hrest.1], hrest.2⟩
        · have h409 : code = 409 := by
            rw [hnet] at hokc
            exact hokc
          subst h409
          rw [generateUrls_cons_409 hfc hnet]
          simp only [List.filterMap_cons, hfc, if_neg, Bool.false_eq_true,
            not_false_eq_true, hnet]
          exact hrest
  · intro parent fs gen fetch p hp
    unfold generateSvgs at hp
    by_cases hroot : (parent ++ "/flowcode_images") ∈ fs
    · rw [if_pos hroot] at hp
      exact generateSvgsLoop_fetch_campaign_mem gen _ fetch fs p hp
    · rw [if_neg hroot] at hp
      exact generateSvgsLoop_fetch_campaign_mem gen _ fetch _ p hp

theorem c8_url_409_no_entry_no_image_witness :
    ((generateUrls [([{ id := "x1", url_type := "URL", url := "u1" }], "A")] "cid" []
        (fun _ => .httpError 409)).2
      = (generateUrls [] "cid" [] (fun _ => .httpError 409)).2)
    ∧ (generateUrls [([{ id := "x1", url_type := "URL", url := "u1" }], "A")] "cid" []
        (fun _ => .httpError 500)
      = ([mkCodesData "cid" "A" [{ id := "x1", url_type := "URL", url := "u1" }] []],
         [], some 500))
    ∧ ((generateUrls [([{ id := "x1", url_type := "URL", url := "u1" }], "A")] "cid" []
        (fun _ => .ok [])).2.2 = none)
    ∧ (([("A", [({ id := "x1", qr_code := "q1" } : GenUrl)])]).map Prod.fst
        = ([("A", [({ id := "x1", images := [{ url := "q1" }] } : GenEntry)])]).map
            Prod.fst)
    ∧ ("A" ∈ ([("A", [({ id := "x1", qr_code := "q1" } : GenUrl)])]).map Prod.fst) :=
  ⟨c8_url_409_no_entry_no_image.1 [] [{ id := "x1", url_type := "URL", url := "u1" }]
     "A" [] "cid" [] (fun _ => .httpError 409) (by decide) rfl,
   c8_url_409_no_entry_no_image.2.1 [{ id := "x1", url_type := "URL", url := "u1" }]
     "A" [] "cid" [] (fun _ => .httpError 500) 500 (by decide) rfl (by decide),
   (c8_url_409_no_entry_no_image.2.2.1
     [([{ id := "x1", url_type := "URL", url := "u1" }], "A")] "cid" []
     (fun _ => .ok []) (fun p _ => by exact trivial)).2,
   c8_url_409_no_entry_no_image.2.2.2.1
     [("A", [{ id := "x1", images := [{ url := "q1" }] }])]
     [("A", [{ id := "x1", qr_code := "q1" }])] rfl,
   c8_url_409_no_entry_no_image.2.2.2.2 "/out" []
     [("A", [{ id := "x1", qr_code := "q1" }])] (fun u => u) ("A", "q1") (by decide)⟩

/-- A campaign directory path strictly extends the root path, so its
mkdir is never the mkdir of the root. -/
theorem campaignDirPath_ne_root (root_dir campaign : String) :
    campaignDirPath root_dir campaign ≠ root_dir := by
  intro h
  have hlen := congrArg String.length h
  rw [campaignDirPath] at hlen
  rw [String.length_append, String.length_append] at hlen
  have h1 : String.length "/" = 1 := rfl
  rw [h1] at hlen
  omega

/-- Equation lemma for the materialiser loop when the campaign directory
is fresh. -/
theorem generateSvgsLoop_cons_new {root_dir c : String} {fs : List String}
    (h : campaignDirPath root_dir c ∉ fs) (urls : List GenUrl)
    (rest : List (String × List GenUrl)) (fetch : String → String) :
    generateSvgsLoop root_dir fetch fs ((c, urls) :: rest)
      = (FsAction.mkdir (campaignDirPath root_dir c)
           :: (urls.map (fun u =>
                 FsAction.write (svgFilePath (campaignDirPath root_dir c) u.id)
                   (fetch u.qr_code))
              ++ (generateSvgsLoop root_dir fetch
                    (campaignDirPath root_dir c :: fs) rest).1),
         urls.map (fun u => (c, u.qr_code))
           ++ (generateSvgsLoop root_dir fetch
                 (campaignDirPath root_dir c :: fs) rest).2.1,
         (generateSvgsLoop root_dir fetch
             (campaignDirPath root_dir c :: fs) rest).2.2) := by
  simp only [generateSvgsLoop, if_neg h]
  rfl

/-- The materialiser loop never creates the root directory. -/
theorem generateSvgsLoop_no_root_mkdir :
    ∀ (gen : List (String × List GenUrl)) (root_dir : String)
      (fetch : String → String) (fs : List String),
      FsAction.mkdir root_dir ∉ (generateSvgsLoop root_dir fetch fs gen).1 := by
  intro gen
  induction gen with
  | nil => intro root fetch fs h; simp [generateSvgsLoop] at h
  | cons g rest ih =>
    intro root fetch fs h
    rcases g with ⟨c, urls⟩
    by_cases hdir : campaignDirPath root c ∈ fs
    · simp only [generateSvgsLoop, if_pos hdir] at h
      simp at h
    · rw [generateSvgsLoop_cons_new hdir urls rest fetch] at h
      rcases List.mem_cons.mp h with h | h
      · exact campaignDirPath_ne_root root c (by simpa using h.symm)
      · rcases List.mem_append.mp h with h | h
        · rcases List.mem_map.mp h with ⟨u, _, hu⟩
          cases hu
        · exact ih root fetch _ h

/-- The only error the materialiser loop raises is a campaign directory
that already exists. -/
theorem generateSvgsLoop_err_is_campaign_dir :
    ∀ (gen : List (String × List GenUrl)) (root_dir : String)
      (fetch : String → String) (fs : List String) (p : String),
      (generateSvgsLoop root_dir fetch fs gen).2.2 = some p →
        ∃ c ∈ gen.map Prod.fst, p = campaignDirPath root_dir c := by
  intro gen
  induction gen with
  | nil => intro root fetch fs p h; simp [generateSvgsLoop] at h
  | cons g rest ih =>
    intro root fetch fs p h
    rcases g with ⟨c, urls⟩
    by_cases hdir : campaignDirPath root c ∈ fs
    · simp only [generateSvgsLoop, if_pos hdir, Option.some.injEq] at h
      exact ⟨c, by simp, h.symm⟩
    · simp only [generateSvgsLoop, if_neg hdir] at h
      rcases ih root fetch _ p h with ⟨c', hc', hp⟩
      exact ⟨c', by simp [hc'], hp⟩

/-- If some campaign of the mapping already has its directory on disk,
the loop raises. -/
theorem generateSvgsLoop_existing_dir_fails :
    ∀ (gen : List (String × List GenUrl)) (root_dir : String)
      (fetch : String → String) (fs : List String) (c : String),
      c ∈ gen.map Prod.fst → campaignDirPath root_dir c ∈ fs →
        (generateSvgsLoop root_dir fetch fs gen).2.2 ≠ none := by
  intro gen
  induction gen with
  | nil => intro root fetch fs c hc; simp at hc
  | cons g rest ih =>
    intro root fetch fs c hc hdir
    rcases g with ⟨c0, urls⟩
    simp only [List.map_cons, List.mem_cons] at hc
    by_cases hd0 : campaignDirPath root c0 ∈ fs
    · simp [generateSvgsLoop, if_pos hd0]
    · simp only [generateSvgsLoop, if_neg hd0]
      rcases hc with hc | hc
      · subst hc; exact absurd hdir hd0
      · exact ih root fetch _ c hc (by simp [hdir])

/-- On a run that raised no error every image file write is in the
action trace. -/
theorem generateSvgsLoop_success_writes :
    ∀ (gen : List (String × List GenUrl)) (root_dir : String)
      (fetch : String → String) (fs : List String),
      (generateSvgsLoop root_dir fetch fs gen).2.2 = none →
      ∀ (c : String) (urls : List GenUrl), (c, urls) ∈ gen →
      ∀ u ∈ urls,
        FsAction.write (svgFilePath (campaignDirPath root_dir c) u.id)
            (fetch u.qr_code)
          ∈ (generateSvgsLoop root_dir fetch fs gen).1 := by
  intro gen
  induction gen with
  | nil => intro root fetch fs _ c urls hc; simp at hc
  | cons g rest ih =>
    intro root fetch fs hnone c urls hc u hu
    rcases g with ⟨c0, urls0⟩
    by_cases hd0 : campaignDirPath root c0 ∈ fs
    · simp [generateSvgsLoop, if_pos hd0] at hnone
    · simp only [generateSvgsLoop, if_neg hd0] at hnone ⊢
      rcases List.mem_cons.mp hc with hc | hc
      · rcases Prod.mk.injEq .. ▸ hc with ⟨rfl, rfl⟩
        refine List.mem_cons_of_mem _ (List.mem_append.mpr (Or.inl ?_))
        exact List.mem_map.mpr ⟨u, hu, rfl⟩
      · refine List.mem_cons_of_mem _ (List.mem_append.mpr (Or.inr ?_))
        exact ih root fetch _ hnone c urls hc u hu

/-- C9: the root folder flowcode_images is created only when absent and
its possible pre-existence never raises (every raised path is a campaign
directory); each campaign directory is created unconditionally, so any
campaign whose directory already exists makes the run fail; and on a
successful run the bytes of each entry land in campaign_dir/id.svg. -/
theorem c9_svg_directories_and_writes :
    (∀ (parent_dir : String) (fs : List String) (gen : List (String × List GenUrl))
       (fetch : String → String),
       (parent_dir ++ "/flowcode_images") ∈ fs →
         FsAction.mkdir (parent_dir ++ "/flowcode_images")
           ∉ (generateSvgs parent_dir fs gen fetch).1)
    ∧ (∀ (parent_dir : String) (fs : List String) (gen : List (String × List GenUrl))
         (fetch : String → String),
         (parent_dir ++ "/flowcode_images") ∉ fs →
           FsAction.mkdir (parent_dir ++ "/flowcode_images")
             ∈ (generateSvgs parent_dir fs gen fetch).1)
    ∧ (∀ (parent_dir : String) (fs : List String) (gen : List (String × List GenUrl))
         (fetch : String → String) (p : String),
         (generateSvgs parent_dir fs gen fetch).2.2 = some p →
           ∃ c ∈ gen.map Prod.fst, p = campaignDirPath (parent_dir ++ "/flowcode_images") c)
    ∧ (∀ (parent_dir : String) (fs : List String) (gen : List (String × List GenUrl))
         (fetch : String → String) (c : String),
         c ∈ gen.map Prod.fst →
         campaignDirPath (parent_dir ++ "/flowcode_images") c ∈ fs →
           (generateSvgs parent_dir fs gen fetch).2.2 ≠ none)
    ∧ (∀ (parent_dir : String) (fs : List String) (gen : List (String × List GenUrl))
         (fetch : String → String),
         (generateSvgs parent_dir fs gen fetch).2.2 = none →
         ∀ (c : String) (urls : List GenUrl), (c, urls) ∈ gen →
         ∀ u ∈ urls,
           FsAction.write
               (svgFilePath (campaignDirPath (parent_dir ++ "/flowcode_images") c) u.id)
               (fetch u.qr_code)
             ∈ (generateSvgs parent_dir fs gen fetch).1) := by
  refine ⟨?_, ?_, ?_, ?_, ?_⟩
  · intro parent fs gen fetch hroot
    unfold generateSvgs
    rw [if_pos hroot]
    exact generateSvgsLoop_no_root_mkdir gen _ fetch fs
  · intro parent fs gen fetch hroot
    unfold generateSvgs
    rw [if_neg hroot]
    simp
  · intro parent fs gen fetch p h
    unfold generateSvgs at h
    by_cases hroot : (parent ++ "/flowcode_images") ∈ fs
    · rw [if_pos hroot] at h
      exact generateSvgsLoop_err_is_campaign_dir gen _ fetch fs p h
    · rw [if_neg hroot] at h
      exact generateSvgsLoop_err_is_campaign_dir gen _ fetch _ p h
  · intro parent fs gen fetch c hc hdir
    unfold generateSvgs
    by_cases hroot : (parent ++ "/flowcode_images") ∈ fs
    · rw [if_pos hroot]
      exact generateSvgsLoop_existing_dir_fails gen _ fetch fs c hc hdir
    · rw [if_neg hroot]
      exact generateSvgsLoop_existing_dir_fails gen _ fetch _ c hc (by simp [hdir])
  · intro parent fs gen fetch hnone c urls hc u hu
    unfold generateSvgs at hnone ⊢
    by_cases hroot : (parent ++ "/flowcode_images") ∈ fs
    · rw [if_pos hroot] at hnone ⊢
      exact generateSvgsLoop_success_writes gen _ fetch fs hnone c urls hc u hu
    · rw [if_neg hroot] at hnone ⊢
      exact List.mem_cons_of_mem _
        (generateSvgsLoop_success_writes gen _ fetch _ hnone c urls hc u hu)

theorem c9_svg_directories_and_writes_witness :
    (FsAction.mkdir "/out/flowcode_images"
        ∉ (generateSvgs "/out" ["/out/flowcode_images"]
            [("A", [{ id := "x1", qr_code := "q1" }])] (fun u => u)).1)
    ∧ (FsAction.mkdir "/out/flowcode_images"
        ∈ (generateSvgs "/out" [] [("A", [{ id := "x1", qr_code := "q1" }])]
            (fun u => u)).1)
    ∧ (∃ c ∈ ([("A", [({ id := "x1", qr_code := "q1" } : GenUrl)])]).map Prod.fst,
        "/out/flowcode_images/A" = campaignDirPath ("/out" ++ "/flowcode_images") c)
    ∧ ((generateSvgs "/out" ["/out/flowcode_images/A"]
          [("A", [{ id := "x1", qr_code := "q1" }])] (fun u => u)).2.2 ≠ none)
    ∧ (FsAction.write "/out/flowcode_images/A/x1.svg" "q1"
        ∈ (generateSvgs "/out" [] [("A", [{ id := "x1", qr_code := "q1" }])]
            (fun u => u)).1) := by
  refine ⟨?_, ?_, ?_, ?_, ?_⟩
  · exact c9_svg_directories_and_writes.1 "/out" ["/out/flowcode_images"]
      [("A", [{ id := "x1", qr_code := "q1" }])] (fun u => u) (by decide)
  · exact c9_svg_directories_and_writes.2.1 "/out" []
      [("A", [{ id := "x1", qr_code := "q1" }])] (fun u => u) (by decide)
  · exact c9_svg_directories_and_writes.2.2.1 "/out" ["/out/flowcode_images/A"]
      [("A", [{ id := "x1", qr_code := "q1" }])] (fun u => u)
      "/out/flowcode_images/A" (by decide)
  · exact c9_svg_directories_and_writes.2.2.2.1 "/out" ["/out/flowcode_images/A"]
      [("A", [{ id := "x1", qr_code := "q1" }])] (fun u => u) "A" (by decide) (by decide)
  · exact c9_svg_directories_and_writes.2.2.2.2 "/out" []
      [("A", [{ id := "x1", qr_code := "q1" }])] (fun u => u) (by decide) "A"
      [{ id := "x1", qr_code := "q1" }] (by decide)
      { id := "x1", qr_code := "q1" } (by decide)

end Flowcode
